import Mathlib

/-!
Shallow embedding of the betatester scrape execution engine
(`python_package/src/betatester`): the data model, browser action
execution, the step executor's choose-and-execute loop, the session
orchestrator's page-view loop, scrape-spec replay, the JSON file
round-trip of a scrape spec, and the markup sanitizer.

Browser and model calls are embedded as oracles: the model's streamed
instruction and chosen actions, and the browser-level outcome of each
attempted action, are inputs to the functions; the functions compute
exactly the control flow of the Python source on those inputs.
-/

namespace Betatester

/-- The SpecialInstruction enum of `betatester_types.py` (WAIT | DONE). -/
inductive SpecialInstruction
| WAIT
| DONE
deriving DecidableEq, Repr

/-- The ActionType enum of `betatester_types.py`. -/
inductive ActionType
| click
| fill
| select
| check
| upload_file
| none
deriving DecidableEq, Repr

/-- The ActionElement model of `betatester_types.py`: all fields optional. -/
structure ActionElement where
  role : Option String
  name : Option String
  selector : Option String
deriving DecidableEq, Repr

/-- The Action model of `betatester_types.py`. -/
structure Action where
  element : ActionElement
  action_type : ActionType
  action_value : Option String
deriving DecidableEq, Repr

/-- The FileInfo model of `betatester_types.py` (name, b64_content, mime_type). -/
structure FileInfo where
  name : String
  b64_content : String
  mime_type : String
deriving DecidableEq, Repr

/-- A ScrapeEvent is the tagged union of an Action and a SpecialInstruction. -/
inductive ScrapeEvent
| action (a : Action)
| special (s : SpecialInstruction)
deriving DecidableEq, Repr

/-- Python dict with string keys, embedded as an association list
(insertion ordered, as Python dicts are). -/
abbrev PyDict (α : Type) := List (String × α)

/-- ScrapeVariables = dict[str, str]. -/
abbrev ScrapeVariables := PyDict String

/-- ScrapeFiles = dict[str, FileInfo]. -/
abbrev ScrapeFiles := PyDict FileInfo

/-- Python d.get(k) over the association-list embedding of a dict. -/
def dictGet {α : Type} (d : PyDict α) (k : String) : Option α :=
  (d.find? (fun p => p.1 == k)).map Prod.snd

/-- Does the character list starting here begin with the pattern list? -/
def listStarts : List Char → List Char → Bool
  | _, [] => true
  | [], _ :: _ => false
  | a :: s, b :: t => a == b && listStarts s t

/-- Does the character list contain the pattern list as a contiguous run? -/
def listHasSub (pat : List Char) : List Char → Bool
  | [] => listStarts [] pat
  | c :: t => listStarts (c :: t) pat || listHasSub pat t

/-- The Python membership test pat in s on strings: substring containment,
used by the engine for its permissive DONE and WAIT token matching. -/
def pyContains (s pat : String) : Bool :=
  listHasSub pat.toList s.toList

/-- The Python str.strip method: drop whitespace from both ends. -/
def pyStrip (s : String) : String :=
  String.mk
    (((s.toList.dropWhile Char.isWhitespace).reverse.dropWhile
        Char.isWhitespace).reverse)

/-- The name cleaning applied in `_execute_action` before building the
role locator: keep alphanumeric and whitespace characters, then strip. -/
def cleanName (s : String) : String :=
  pyStrip (String.mk (s.toList.filter (fun c => c.isAlphanum || c.isWhitespace)))

/-- A playwright locator as built by `_execute_action`: either a raw CSS
selector or a role with an optional cleaned, case-insensitive name. -/
inductive Locator
| bySelector (sel : String)
| byRole (role : String) (name : Option String)
deriving DecidableEq, Repr

/-- A browser operation issued by `_execute_action` on its locator. -/
inductive BrowserOp
| click (l : Locator)
| fill (l : Locator) (value : String)
| selectOption (l : Locator) (value : Option String)
| check (l : Locator)
| setInputFiles (l : Locator) (file : FileInfo)
| noop
deriving DecidableEq, Repr

/-- An ActionNotFoundException raised by `_execute_action`. -/
inductive ActionError
| actionNotFound (msg : String)
deriving DecidableEq, Repr

/-- Locator resolution of `_execute_action` (execution.py lines 72 to 89):
prefer the selector, else the role with the cleaned optional name, else
raise ActionNotFoundException. -/
def locatorOf (element : ActionElement) : Except ActionError Locator :=
  match element.selector with
  | some sel => .ok (.bySelector sel)
  | Option.none =>
    match element.role with
    | some r => .ok (.byRole r (element.name.map cleanName))
    | Option.none =>
      .error (.actionNotFound "Action requires either an id or a role")

/-- Embedding of `_execute_action` (execution.py lines 65 to 122): resolves
the locator, then returns the browser operation the code issues, with the
variable substitution applied exactly where the source applies it. -/
def _execute_action (action : Action) (vars : ScrapeVariables)
    (files : ScrapeFiles) : Except ActionError BrowserOp := do
  let element ← locatorOf action.element
  match action.action_type with
  | .click => .ok (.click element)
  | .fill =>
    match action.action_value with
    | Option.none =>
      .error (.actionNotFound "Action type 'fill' requires an action_value")
    | some v =>
      let action_value := (dictGet vars v).getD v
      .ok (.fill element action_value)
  | .select => .ok (.selectOption element action.action_value)
  | .check => .ok (.check element)
  | .upload_file =>
    match action.action_value with
    | Option.none =>
      .error (.actionNotFound
        "Action type 'upload' requires an action_value and files")
    | some v =>
      match dictGet files v with
      | Option.none =>
        .error (.actionNotFound "Action value not found in files")
      | some file => .ok (.setInputFiles element file)
  | ActionType.none => .ok .noop

/-- Embedding of the ScrapeAiExecutor.max_action_attempts property
(execution.py lines 633 to 645). Counts are integers, as in Python,
so the subtraction is not truncated. -/
def max_action_attempts (max_action_attempts_per_step : Option Int)
    (max_total_actions : Option Int) (scrape_action_count : Int) : Option Int :=
  match max_action_attempts_per_step with
  | Option.none => Option.none
  | some p =>
    match max_total_actions with
    | Option.none => some p
    | some t => some (min p (t - scrape_action_count))

/-- The browser-level outcome of one attempted action execution, as
discriminated by the except clauses of `_choose_and_execute_action`
(execution.py lines 448 to 485): success, a playwright TimeoutError,
an exception whose text contains "is not a valid selector", one whose
text contains "strict mode violation", or any other exception. -/
inductive ExecOutcome
| success
| timeoutError
| invalidSelectorError
| strictModeViolation
| otherError
deriving DecidableEq, Repr

/-- Result of the choose-and-execute loop: success with the executed
action, a soft stop on attempt exhaustion returning no action, or an
exception propagating out; each carries the step action counter. -/
inductive LoopRes
| success (a : Action) (attempts : Nat)
| capped (attempts : Nat)
| raised (attempts : Nat)
deriving DecidableEq, Repr

/-- Embedding of `ScrapeStepAiExecutor._choose_and_execute_action`
(execution.py lines 426 to 497). The oracle lists, per loop iteration,
the action chosen by the model and the browser outcome of executing it.
Returns the loop result together with the list of published
(action, step_action_count) progress messages; Option.none means the
oracle was shorter than the number of iterations the loop performs. -/
def _choose_and_execute_action (vars : ScrapeVariables) (files : ScrapeFiles)
    (maxAttempts : Option Nat) :
    Nat → List (Action × ExecOutcome) → Option (LoopRes × List (Action × Nat))
  | _, [] => Option.none
  | count, (a, outcome) :: rest =>
    let count' := count + 1
    match _execute_action a vars files with
    | .error _ => some (.raised count', [(a, count')])
    | .ok _ =>
      let retryRes : Option (LoopRes × List (Action × Nat)) :=
        if (match maxAttempts with
            | some m => decide (m ≤ count')
            | Option.none => false) then
          some (.capped count', [(a, count')])
        else
          match _choose_and_execute_action vars files maxAttempts count' rest with
          | Option.none => Option.none
          | some (res, pubs) => some (res, (a, count') :: pubs)
      match outcome with
      | .success => some (.success a count', [(a, count')])
      | .otherError => some (.raised count', [(a, count')])
      | .timeoutError => retryRes
      | .invalidSelectorError => retryRes
      | .strictModeViolation => retryRes

/-- The triple returned by a step run: next instruction, executed action
if any, and the step action count. -/
structure StepRes where
  next_instruction : Option String
  action : Option Action
  action_count : Nat
deriving DecidableEq, Repr

/-- Result of ScrapeStepAiExecutor.run, with the published
(action, step_action_count) messages of the choose-and-execute loop. -/
inductive StepRunRes
| ok (r : StepRes) (published : List (Action × Nat))
| raised (published : List (Action × Nat))
| modelOracleExhausted
deriving DecidableEq, Repr

/-- Embedding of ScrapeStepAiExecutor.run (execution.py lines 499 to 523):
the streamed next instruction and the choose-action oracle are inputs;
an instruction containing DONE or WAIT as a substring short-circuits
before the choose-and-execute loop. -/
def ScrapeStepAiExecutor_run (vars : ScrapeVariables) (files : ScrapeFiles)
    (maxAttempts : Option Nat) (next_instruction : String)
    (oracle : List (Action × ExecOutcome)) : StepRunRes :=
  if pyContains next_instruction "DONE" || pyContains next_instruction "WAIT" then
    .ok ⟨some next_instruction, Option.none, 0⟩ []
  else
    match _choose_and_execute_action vars files maxAttempts 0 oracle with
    | Option.none => .modelOracleExhausted
    | some (.success a n, pubs) => .ok ⟨some next_instruction, some a, n⟩ pubs
    | some (.capped n, pubs) => .ok ⟨some next_instruction, Option.none, n⟩ pubs
    | some (.raised _, pubs) => .raised pubs

/-- One completed step as consumed by the session loop: the instruction
the model produced, the executed action if any, and the action count. -/
structure StepOut where
  instruction : String
  action : Option Action
  action_count : Nat
deriving DecidableEq, Repr

/-- How a session's page-view loop ends: normal completion on DONE, one
of the two budget exceptions, or exhaustion of the step oracle. Each
carries the accumulated event trace and final counters. -/
inductive SessionRes
| done (events : List ScrapeEvent) (page_views total_actions : Nat)
| maxTotalActionsReached (events : List ScrapeEvent) (page_views total_actions : Nat)
| maxPageViewsReached (events : List ScrapeEvent) (page_views total_actions : Nat)
| outOfSteps (events : List ScrapeEvent) (page_views total_actions : Nat)
deriving DecidableEq, Repr

/-- Embedding of the page-view loop of ScrapeAiExecutor._execute
(execution.py lines 647 to 729): per iteration increment the page view
counter, consume one step result, classify the instruction (DONE before
WAIT, substring match), add the step action count, append the action and
then the special instruction to the event trace, break on DONE, then
check the total-actions budget and the page-views budget in that order. -/
def ScrapeAiExecutor_execute (max_total_actions max_page_views : Option Nat) :
    Nat → Nat → List ScrapeEvent → List StepOut → SessionRes
  | pv, ac, events, [] => .outOfSteps events pv ac
  | pv, ac, events, s :: rest =>
    let pv' := pv + 1
    let fmt : Option SpecialInstruction :=
      if pyContains s.instruction "DONE" then some .DONE
      else if pyContains s.instruction "WAIT" then some .WAIT
      else Option.none
    let ac' := ac + s.action_count
    let events' := events ++ (s.action.map ScrapeEvent.action).toList
        ++ (fmt.map ScrapeEvent.special).toList
    if fmt = some SpecialInstruction.DONE then .done events' pv' ac'
    else if (match max_total_actions with
             | some t => decide (t ≤ ac')
             | Option.none => false) then .maxTotalActionsReached events' pv' ac'
    else if (match max_page_views with
             | some m => decide (m ≤ pv')
             | Option.none => false) then .maxPageViewsReached events' pv' ac'
    else ScrapeAiExecutor_execute max_total_actions max_page_views pv' ac' events' rest

/-- An observable effect of a replay run: one browser call attempting an
action, or a fixed sleep of the given milliseconds. -/
inductive ReplayEffect
| execOp (op : BrowserOp)
| sleep (ms : Nat)
deriving DecidableEq, Repr

/-- Result of a replay run with its effect trace: completion, a hard
failure aborting the run, or exhaustion of the browser outcome oracle. -/
inductive ReplayRes
| completed (trace : List ReplayEffect)
| failed (trace : List ReplayEffect)
| browserOracleExhausted (trace : List ReplayEffect)
deriving DecidableEq, Repr

/-- Prepends an effect to the trace of a replay result. -/
def consEffect (e : ReplayEffect) : ReplayRes → ReplayRes
  | .completed t => .completed (e :: t)
  | .failed t => .failed (e :: t)
  | .browserOracleExhausted t => .browserOracleExhausted (e :: t)

/-- Embedding of ScrapeSpecExecutor._execute (execution.py lines 779 to
795): iterate the recorded events in order; an Action event is executed
with a single browser call whose success is given by the oracle and
whose failure aborts the run; a special instruction (WAIT or DONE alike)
sleeps 5000 ms and iteration continues with the remaining events. -/
def ScrapeSpecExecutor_execute (vars : ScrapeVariables) (files : ScrapeFiles) :
    List ScrapeEvent → List Bool → ReplayRes
  | [], _ => .completed []
  | .action a :: rest, oracle =>
    match _execute_action a vars files with
    | .error _ => .failed []
    | .ok op =>
      match oracle with
      | [] => .browserOracleExhausted []
      | b :: obs =>
        if b then
          consEffect (.execOp op) (ScrapeSpecExecutor_execute vars files rest obs)
        else .failed [.execOp op]
  | .special _ :: rest, oracle =>
    consEffect (.sleep 5000) (ScrapeSpecExecutor_execute vars files rest oracle)

/-- The ScrapeSpec model of `betatester_types.py`. The Python field
named variables is called vars here because variables is a reserved
word in Lean; the JSON key keeps the source spelling. -/
structure ScrapeSpec where
  url : String
  scrape_events : List ScrapeEvent
  vars : ScrapeVariables
  files : ScrapeFiles
  viewport_width : Int
  viewport_height : Int
deriving DecidableEq, Repr

/-- A JSON value, the file form written by model_dump_json and read by
model_validate_json. -/
inductive Json
| str (s : String)
| num (n : Int)
| null
| arr (xs : List Json)
| obj (fields : List (String × Json))

/-- Serialization of an optional string field: pydantic emits null. -/
def optStrToJson : Option String → Json
  | Option.none => .null
  | some s => .str s

/-- Value of each ActionType member of the str enum. -/
def actionTypeToString : ActionType → String
  | .click => "click"
  | .fill => "fill"
  | .select => "select"
  | .check => "check"
  | .upload_file => "upload_file"
  | ActionType.none => "none"

/-- Value of each SpecialInstruction member of the str enum. -/
def specialToString : SpecialInstruction → String
  | .WAIT => "WAIT"
  | .DONE => "DONE"

/-- Serialization of an ActionElement. -/
def actionElementToJson (e : ActionElement) : Json :=
  .obj [("role", optStrToJson e.role), ("name", optStrToJson e.name),
        ("selector", optStrToJson e.selector)]

/-- Serialization of an Action. -/
def actionToJson (a : Action) : Json :=
  .obj [("element", actionElementToJson a.element),
        ("action_type", .str (actionTypeToString a.action_type)),
        ("action_value", optStrToJson a.action_value)]

/-- Serialization of a ScrapeEvent: an Action dumps as an object, a
SpecialInstruction as its enum string. -/
def scrapeEventToJson : ScrapeEvent → Json
  | .action a => actionToJson a
  | .special s => .str (specialToString s)

/-- Serialization of a FileInfo. -/
def fileInfoToJson (f : FileInfo) : Json :=
  .obj [("name", .str f.name), ("b64_content", .str f.b64_content),
        ("mime_type", .str f.mime_type)]

/-- Serialization of the variables dict. -/
def varsToJson (v : ScrapeVariables) : Json :=
  .obj (v.map (fun p => (p.1, Json.str p.2)))

/-- Serialization of the files dict. -/
def filesToJson (fs : ScrapeFiles) : Json :=
  .obj (fs.map (fun p => (p.1, fileInfoToJson p.2)))

/-- Serialization of a ScrapeSpec, the file form saved by
LocalFileClient.save_scrape_spec (local.py lines 89 to 94). -/
def scrapeSpecToJson (s : ScrapeSpec) : Json :=
  .obj [("url", .str s.url),
        ("scrape_events", .arr (s.scrape_events.map scrapeEventToJson)),
        ("variables", varsToJson s.vars),
        ("files", filesToJson s.files),
        ("viewport_width", .num s.viewport_width),
        ("viewport_height", .num s.viewport_height)]

/-- Lookup of a key in a JSON object's field list. -/
def jGet (fields : List (String × Json)) (k : String) : Option Json :=
  (fields.find? (fun p => p.1 == k)).map Prod.snd

/-- Validation of an optional string field. -/
def optStrFromJson : Json → Option (Option String)
  | .null => some Option.none
  | .str s => some (some s)
  | _ => Option.none

/-- Validation of a plain string field. -/
def strFromJson : Json → Option String
  | .str s => some s
  | _ => Option.none

/-- Validation of an integer field. -/
def intFromJson : Json → Option Int
  | .num n => some n
  | _ => Option.none

/-- Validation of an ActionType from its enum string. -/
def actionTypeFromString (s : String) : Option ActionType :=
  if s = "click" then some .click
  else if s = "fill" then some .fill
  else if s = "select" then some .select
  else if s = "check" then some .check
  else if s = "upload_file" then some .upload_file
  else if s = "none" then some ActionType.none
  else Option.none

/-- Validation of a SpecialInstruction from its enum string. -/
def specialFromString (s : String) : Option SpecialInstruction :=
  if s = "WAIT" then some .WAIT
  else if s = "DONE" then some .DONE
  else Option.none

/-- Validation of an ActionElement. -/
def actionElementFromJson : Json → Option ActionElement
  | .obj fields => do
    let role ← optStrFromJson (← jGet fields "role")
    let name ← optStrFromJson (← jGet fields "name")
    let selector ← optStrFromJson (← jGet fields "selector")
    some ⟨role, name, selector⟩
  | _ => Option.none

/-- Validation of an Action. -/
def actionFromJson : Json → Option Action
  | .obj fields => do
    let element ← actionElementFromJson (← jGet fields "element")
    let tstr ← strFromJson (← jGet fields "action_type")
    let ty ← actionTypeFromString tstr
    let value ← optStrFromJson (← jGet fields "action_value")
    some ⟨element, ty, value⟩
  | _ => Option.none

/-- Validation of one scrape event. Pydantic validates the union
Action or SpecialInstruction: a JSON string can only validate as a
SpecialInstruction and a JSON object only as an Action, so the two
arms of the union are discriminated by the shape of the value. -/
def scrapeEventFromJson : Json → Option ScrapeEvent
  | .str s => (specialFromString s).map ScrapeEvent.special
  | .obj fields => (actionFromJson (.obj fields)).map ScrapeEvent.action
  | _ => Option.none

/-- Element-wise validation of a list, failing on the first invalid
element, as pydantic does for a list field. -/
def mapOpt {α β : Type} (f : α → Option β) : List α → Option (List β)
  | [] => some []
  | x :: xs => do
    let y ← f x
    let ys ← mapOpt f xs
    some (y :: ys)

/-- Validation of a FileInfo. -/
def fileInfoFromJson : Json → Option FileInfo
  | .obj fields => do
    let name ← strFromJson (← jGet fields "name")
    let b64 ← strFromJson (← jGet fields "b64_content")
    let mime ← strFromJson (← jGet fields "mime_type")
    some ⟨name, b64, mime⟩
  | _ => Option.none

/-- Validation of the variables dict. -/
def varsFromJson : Json → Option ScrapeVariables
  | .obj fields =>
    mapOpt (fun p => (strFromJson p.2).map (fun v => (p.1, v))) fields
  | _ => Option.none

/-- Validation of the files dict. -/
def filesFromJson : Json → Option ScrapeFiles
  | .obj fields =>
    mapOpt (fun p => (fileInfoFromJson p.2).map (fun v => (p.1, v))) fields
  | _ => Option.none

/-- Validation of a ScrapeSpec from its file form, the load path of
LocalFileClient.load_scrape_spec (local.py lines 96 to 98). -/
def scrapeSpecFromJson : Json → Option ScrapeSpec
  | .obj fields => do
    let url ← strFromJson (← jGet fields "url")
    let evJson ← (match jGet fields "scrape_events" with
      | some (.arr xs) => some xs
      | _ => Option.none)
    let events ← mapOpt scrapeEventFromJson evJson
    let vs ← varsFromJson (← jGet fields "variables")
    let fs ← filesFromJson (← jGet fields "files")
    let w ← intFromJson (← jGet fields "viewport_width")
    let h ← intFromJson (← jGet fields "viewport_height")
    some ⟨url, events, vs, fs, w, h⟩
  | _ => Option.none

mutual
/-- A parsed markup node: a text run or an element with a tag name, an
attribute dict and child nodes, as produced by the parser that feeds
the sanitizer in `_get_html`. -/
inductive HtmlNode
| text (s : String)
| element (name : String) (attrs : List (String × String)) (children : HtmlForest)
/-- A sequence of sibling markup nodes. -/
inductive HtmlForest
| nil
| cons (hd : HtmlNode) (tl : HtmlForest)
end

mutual
/-- Removal of every descendant element with the given tag name, the
effect of decompose over find_all(name) at node level. -/
def removeTagNode (tname : String) : HtmlNode → HtmlNode
  | .text s => .text s
  | .element n a c => .element n a (removeTagForest tname c)
/-- Removal of every element with the given tag name from a forest,
recursing into surviving elements. -/
def removeTagForest (tname : String) : HtmlForest → HtmlForest
  | .nil => .nil
  | .cons hd tl =>
    match hd with
    | .text s => .cons (.text s) (removeTagForest tname tl)
    | .element n a c =>
      if n = tname then removeTagForest tname tl
      else .cons (.element n a (removeTagForest tname c)) (removeTagForest tname tl)
end

/-- Embedding of `_strip_all_script_and_style_tags` (execution.py lines
136 to 141): decompose all script descendants, then all style
descendants, of the body element. find_all searches descendants only,
so the element itself is kept. -/
def _strip_all_script_and_style_tags (body : HtmlNode) : HtmlNode :=
  match body with
  | .text s => .text s
  | .element n a c =>
    .element n a (removeTagForest "style" (removeTagForest "script" c))

/-- The attribute allow list ALLOWED_TAG_SET of execution.py line 46. -/
def ALLOWED_TAG_SET : List String := ["id", "for", "type", "allow", "aria-label"]

/-- Python del d[k] on an attribute dict embedded as an association
list: a KeyError when the key is absent. -/
def delAttr (attrs : List (String × String)) (k : String) :
    Except String (List (String × String)) :=
  if attrs.any (fun p => p.1 == k) then
    .ok (attrs.filter (fun p => p.1 != k))
  else .error "KeyError"

/-- The per-element body of `_strip_attributes_except_allowed_set`
(execution.py lines 126 to 133): iterate over a copy of the element's
attribute keys and delete from the live dict every key that is not in
the allow list. -/
def stripAttrsOne (attrs : List (String × String)) :
    Except String (List (String × String)) :=
  (attrs.map Prod.fst).foldlM
    (fun acc k =>
      if ALLOWED_TAG_SET.contains k then pure acc else delAttr acc k)
    attrs

mutual
/-- Attribute stripping applied to an element and, as find_all(True)
does, to every descendant element. -/
def stripAttrsNode : HtmlNode → Except String HtmlNode
  | .text s => .ok (.text s)
  | .element n a c => do
    let a' ← stripAttrsOne a
    let c' ← stripAttrsForest c
    .ok (.element n a' c')
/-- Attribute stripping over a forest of siblings. -/
def stripAttrsForest : HtmlForest → Except String HtmlForest
  | .nil => .ok .nil
  | .cons hd tl => do
    let hd' ← stripAttrsNode hd
    let tl' ← stripAttrsForest tl
    .ok (.cons hd' tl')
end

/-- Embedding of `_strip_attributes_except_allowed_set` applied to the
body element, covering find_all(True) plus the element itself. -/
def _strip_attributes_except_allowed_set (body : HtmlNode) :
    Except String HtmlNode :=
  stripAttrsNode body

/-- The markup sanitization performed by `_get_html` (execution.py lines
327 to 328) on a present body element: strip script and style elements,
then strip attributes outside the allow list. -/
def sanitizeBody (body : HtmlNode) : Except String HtmlNode :=
  _strip_attributes_except_allowed_set (_strip_all_script_and_style_tags body)

/-- The full sanitization path of `_get_html` (execution.py lines 323 to
329) starting from the result of soup.find("body"), which is None when
the parsed markup contains no body element (the cast at line 326 does
not check for this): the Python code then calls find_all on None and
raises AttributeError before any stripping; with a body present the two
strip passes run on it. -/
def _get_html_sanitized (bodyLookup : Option HtmlNode) : Except String HtmlNode :=
  match bodyLookup with
  | Option.none => .error "AttributeError"
  | some body => sanitizeBody body

/-- Boolean distinctness of a key list, the defining invariant of a
Python dict's keys. -/
def nodupKeys : List String → Bool
  | [] => true
  | k :: t => (!(t.any (fun x => x == k))) && nodupKeys t

mutual
/-- Every attribute dict in the node has distinct keys, which holds of
any tree produced by a parser since Python dict keys are unique. -/
def nodeWF : HtmlNode → Bool
  | .text _ => true
  | .element _ a c => nodupKeys (a.map Prod.fst) && forestWF c
/-- Every attribute dict in the forest has distinct keys. -/
def forestWF : HtmlForest → Bool
  | .nil => true
  | .cons hd tl => nodeWF hd && forestWF tl
end

/-- The list of successive counter values s, s+1, ..., s+k-1, used to
state which step_action_count values the loop publishes. -/
def countsFrom (s : Nat) : Nat → List Nat
  | 0 => []
  | Nat.succ k => s :: countsFrom (s + 1) k

/-- The step action counter carried by a loop result. -/
def loopResCount : LoopRes → Nat
  | .success _ n => n
  | .capped n => n
  | .raised n => n

/-- Sample action resolved through a CSS selector. -/
def clickSubmitAction : Action :=
  ⟨⟨Option.none, Option.none, some "#submit"⟩, ActionType.click, Option.none⟩

/-- Sample action resolved by role and name, the shape used in the
replay example of the specification. -/
def submitButtonAction : Action :=
  ⟨⟨some "button", some "Submit", Option.none⟩, ActionType.click, Option.none⟩

/-- Sample select action whose action_value is a key of the variables
table. -/
def selectUserAction : Action :=
  ⟨⟨Option.none, Option.none, some "#country"⟩, ActionType.select, some "user"⟩

/-- Sample fill action whose action_value is a key of the variables
table. -/
def fillUserAction : Action :=
  ⟨⟨Option.none, Option.none, some "#name"⟩, ActionType.fill, some "user"⟩

/-- Sample step result whose instruction contains neither DONE nor
WAIT. -/
def loginStepOut : StepOut :=
  ⟨"Click the login button", some submitButtonAction, 2⟩

/-- Sample step result whose instruction contains DONE, with a nonzero
action count. -/
def doneStepOut : StepOut := ⟨"DONE", Option.none, 5⟩

/-- Sample parsed body containing a script element, a disallowed inline
attribute and allow-listed attributes. -/
def sampleBody : HtmlNode :=
  .element "body" [("onclick", "y"), ("id", "x")]
    (.cons (.element "script" [] .nil)
      (.cons (.element "div" [("aria-label", "z"), ("style", "color:red")] .nil)
        (.cons (.text "hi") .nil)))

/-! Theorems. Helper lemmas come first, then one theorem per claim with
its witness or counterexample. -/

/-- Reduction of a successful Except bind. -/
theorem exceptBindOk {α β : Type} (x : α) (f : α → Except String β) :
    (Except.ok x >>= f) = f x := rfl

/-- Unfolding of one iteration of the choose-and-execute loop. -/
theorem choose_loop_cons (vars : ScrapeVariables) (files : ScrapeFiles)
    (maxAttempts : Option Nat) (count : Nat) (a : Action)
    (outcome : ExecOutcome) (rest : List (Action × ExecOutcome)) :
    _choose_and_execute_action vars files maxAttempts count ((a, outcome) :: rest) =
      (match _execute_action a vars files with
       | .error _ => some (.raised (count + 1), [(a, count + 1)])
       | .ok _ =>
         let retryRes : Option (LoopRes × List (Action × Nat)) :=
           if (match maxAttempts with
               | some m => decide (m ≤ count + 1)
               | Option.none => false) then
             some (.capped (count + 1), [(a, count + 1)])
           else
             match _choose_and_execute_action vars files maxAttempts (count + 1) rest with
             | Option.none => Option.none
             | some (res, pubs) => some (res, (a, count + 1) :: pubs)
         match outcome with
         | .success => some (.success a (count + 1), [(a, count + 1)])
         | .otherError => some (.raised (count + 1), [(a, count + 1)])
         | .timeoutError => retryRes
         | .invalidSelectorError => retryRes
         | .strictModeViolation => retryRes) := rfl

/-- C1: if the streamed next_instruction contains the substring DONE or
the substring WAIT, the step executor's run returns that instruction
with no action and a zero action count, publishes no loop message and
consumes nothing from the action-selection oracle, for every oracle:
the choose-and-execute loop is never entered. -/
theorem step_run_short_circuit_on_special_token
    (vars : ScrapeVariables) (files : ScrapeFiles) (maxAttempts : Option Nat)
    (instr : String) (oracle : List (Action × ExecOutcome))
    (h : pyContains instr "DONE" = true ∨ pyContains instr "WAIT" = true) :
    ScrapeStepAiExecutor_run vars files maxAttempts instr oracle =
      .ok ⟨some instr, Option.none, 0⟩ [] := by
  unfold ScrapeStepAiExecutor_run
  rcases h with h | h <;> simp [h]

/-- Witness for C1 at a concrete instruction containing DONE and a
nonempty oracle, which the run does not touch. -/
theorem step_run_short_circuit_on_special_token_witness :
    (pyContains "DONE - goal accomplished" "DONE" = true ∨
      pyContains "DONE - goal accomplished" "WAIT" = true) ∧
    ScrapeStepAiExecutor_run [] [] (some 5) "DONE - goal accomplished"
        [(clickSubmitAction, .success)] =
      .ok ⟨some "DONE - goal accomplished", Option.none, 0⟩ [] :=
  ⟨Or.inl (by decide),
    step_run_short_circuit_on_special_token [] [] (some 5)
      "DONE - goal accomplished" [(clickSubmitAction, .success)]
      (Or.inl (by decide))⟩

/-- Counterexample to C2 as stated: with max_action_attempts_per_step
unset and max_total_actions set to 5 with no actions consumed, the
property returns unbounded (Option.none), not the set limit nor the
remaining budget, contradicting the claim that the step cap equals
whichever limit is set when only one is set. -/
theorem max_action_attempts_only_total_set_cex :
    max_action_attempts Option.none (some 5) 0 = Option.none ∧
    ∀ v : Int, max_action_attempts Option.none (some 5) 0 ≠ some v := by
  refine ⟨rfl, ?_⟩
  intro v h
  simp [max_action_attempts] at h

/-- C2 amended: the step cap is min(per-step cap, remaining total
budget) when both limits are set, the per-step cap when only it is set,
and unbounded whenever the per-step cap is unset, even if
max_total_actions is set; with max_total_actions = 5,
max_action_attempts_per_step = 5 and 3 actions consumed it equals 2. -/
theorem max_action_attempts_characterization (p t c : Int) :
    max_action_attempts (some p) (some t) c = some (min p (t - c)) ∧
    max_action_attempts (some p) Option.none c = some p ∧
    max_action_attempts Option.none (some t) c = Option.none ∧
    max_action_attempts Option.none Option.none c = Option.none ∧
    max_action_attempts (some 5) (some 5) 3 = some 2 :=
  ⟨rfl, rfl, rfl, rfl, by decide⟩

/-- Counterexample to C3 as stated: with a first attempt that times out
and is retried and a second attempt that succeeds, the loop returns an
attempt counter of 2, not 1, and a (action, count) message was
published for the failed attempt as well, so the counter is not
incremented only on successful execution. -/
theorem choose_and_execute_counts_failed_attempts_cex :
    _choose_and_execute_action [] [] (some 5) 0
        [(clickSubmitAction, .timeoutError), (clickSubmitAction, .success)] =
      some (.success clickSubmitAction 2,
        [(clickSubmitAction, 1), (clickSubmitAction, 2)]) ∧
    (2 : Nat) ≠ 1 ∧
    ([(clickSubmitAction, 1), (clickSubmitAction, 2)] : List (Action × Nat)).length ≠ 1 :=
  ⟨rfl, by decide, by decide⟩

/-- C3 amended: the step action counter is incremented and published on
every loop attempt, before execution, including failed attempts that
are retried; whenever the loop terminates, the published counts are the
consecutive values count+1, ..., count+k for the k consumed attempts,
the published actions are exactly the attempted ones, and the returned
attempts_taken equals the total number of attempts, not the number of
successful executions. -/
theorem choose_and_execute_attempt_accounting
    (vars : ScrapeVariables) (files : ScrapeFiles) (maxAttempts : Option Nat) :
    ∀ (oracle : List (Action × ExecOutcome)) (count : Nat) (res : LoopRes)
      (pubs : List (Action × Nat)),
    _choose_and_execute_action vars files maxAttempts count oracle = some (res, pubs) →
    pubs.map Prod.snd = countsFrom (count + 1) pubs.length ∧
    loopResCount res = count + pubs.length ∧
    pubs.map Prod.fst = (oracle.take pubs.length).map Prod.fst := by
  intro oracle
  induction oracle with
  | nil =>
    intro count res pubs h
    simp [_choose_and_execute_action] at h
  | cons head rest ih =>
    obtain ⟨a, outcome⟩ := head
    intro count res pubs h
    rw [choose_loop_cons] at h
    cases hex : _execute_action a vars files with
    | error e =>
      rw [hex] at h
      simp at h
      obtain ⟨hres, hpubs⟩ := h
      subst hres; subst hpubs
      simp [countsFrom, loopResCount]
    | ok op =>
      rw [hex] at h
      simp only [] at h
      have retryCase :
          (if (match maxAttempts with
               | some m => decide (m ≤ count + 1)
               | Option.none => false) then
             some (LoopRes.capped (count + 1), [(a, count + 1)])
           else
             match _choose_and_execute_action vars files maxAttempts (count + 1) rest with
             | Option.none => Option.none
             | some (res, pubs) => some (res, (a, count + 1) :: pubs)) = some (res, pubs) →
          pubs.map Prod.snd = countsFrom (count + 1) pubs.length ∧
          loopResCount res = count + pubs.length ∧
          pubs.map Prod.fst = (((a, outcome) :: rest).take pubs.length).map Prod.fst := by
        intro hr
        split at hr
        · simp at hr
          obtain ⟨hres, hpubs⟩ := hr
          subst hres; subst hpubs
          simp [countsFrom, loopResCount]
        · split at hr
          · exact absurd hr (by simp)
          · next res' pubs' hrec =>
            simp at hr
            obtain ⟨hres, hpubs⟩ := hr
            subst hres; subst hpubs
            obtain ⟨ih1, ih2, ih3⟩ := ih (count + 1) res' pubs' hrec
            refine ⟨?_, ?_, ?_⟩
            · simp [countsFrom, ih1]
            · simp [loopResCount] at ih2 ⊢
              omega
            · simp [List.take, ih3]
      cases outcome with
      | success =>
        simp at h
        obtain ⟨hres, hpubs⟩ := h
        subst hres; subst hpubs
        simp [countsFrom, loopResCount]
      | otherError =>
        simp at h
        obtain ⟨hres, hpubs⟩ := h
        subst hres; subst hpubs
        simp [countsFrom, loopResCount]
      | timeoutError => exact retryCase h
      | invalidSelectorError => exact retryCase h
      | strictModeViolation => exact retryCase h

/-- Witness for the amended C3 at the counterexample input: two
attempts, two published counts 1 and 2, returned counter 2. -/
theorem choose_and_execute_attempt_accounting_witness :
    _choose_and_execute_action [] [] (some 5) 0
        [(clickSubmitAction, .timeoutError), (clickSubmitAction, .success)] =
      some (.success clickSubmitAction 2,
        [(clickSubmitAction, 1), (clickSubmitAction, 2)]) ∧
    ([(clickSubmitAction, 1), (clickSubmitAction, 2)] : List (Action × Nat)).map Prod.snd =
      countsFrom (0 + 1)
        ([(clickSubmitAction, 1), (clickSubmitAction, 2)] : List (Action × Nat)).length ∧
    loopResCount (.success clickSubmitAction 2) =
      0 + ([(clickSubmitAction, 1), (clickSubmitAction, 2)] : List (Action × Nat)).length :=
  ⟨rfl,
    (choose_and_execute_attempt_accounting [] [] (some 5)
      [(clickSubmitAction, .timeoutError), (clickSubmitAction, .success)] 0
      (.success clickSubmitAction 2)
      [(clickSubmitAction, 1), (clickSubmitAction, 2)] rfl).1,
    (choose_and_execute_attempt_accounting [] [] (some 5)
      [(clickSubmitAction, .timeoutError), (clickSubmitAction, .success)] 0
      (.success clickSubmitAction 2)
      [(clickSubmitAction, 1), (clickSubmitAction, 2)] rfl).2.1⟩

/-- Counterexample to C4 as stated: a select action whose action_value
is the key user of a variables table mapping user to alice passes the
literal string user to the browser's select operation, not the
substituted value alice. -/
theorem select_uses_literal_value_cex :
    _execute_action selectUserAction [("user", "alice")] [] =
      .ok (.selectOption (.bySelector "#country") (some "user")) ∧
    dictGet [("user", "alice")] "user" = some "alice" ∧
    ("user" : String) ≠ "alice" :=
  ⟨rfl, rfl, by decide⟩

/-- C4 amended: for every select action the value passed to the
browser's select operation is the literal action_value, with no
substitution through the Variables table; only fill substitutes. -/
theorem select_passes_literal_action_value
    (a : Action) (vars : ScrapeVariables) (files : ScrapeFiles)
    (h : a.action_type = ActionType.select) :
    _execute_action a vars files =
      (locatorOf a.element).map (fun l => BrowserOp.selectOption l a.action_value) := by
  unfold _execute_action
  cases hl : locatorOf a.element with
  | error e => rfl
  | ok l => simp only [h, Except.map]; rfl

/-- Witness for the amended C4 at the counterexample input. -/
theorem select_passes_literal_action_value_witness :
    selectUserAction.action_type = ActionType.select ∧
    _execute_action selectUserAction [("user", "alice")] [] =
      (locatorOf selectUserAction.element).map
        (fun l => BrowserOp.selectOption l selectUserAction.action_value) :=
  ⟨rfl, select_passes_literal_action_value selectUserAction
    [("user", "alice")] [] rfl⟩

/-- C5: for every fill action with action_value v, when v matches a key
of the variables table the value filled into the resolved element is
that variable's value, and when no key matches the literal v is
filled. -/
theorem fill_substitutes_variables
    (a : Action) (vars : ScrapeVariables) (files : ScrapeFiles) (v : String)
    (h : a.action_type = ActionType.fill) (hv : a.action_value = some v) :
    (∀ u, dictGet vars v = some u →
      _execute_action a vars files =
        (locatorOf a.element).map (fun l => BrowserOp.fill l u)) ∧
    (dictGet vars v = Option.none →
      _execute_action a vars files =
        (locatorOf a.element).map (fun l => BrowserOp.fill l v)) := by
  unfold _execute_action
  constructor
  · intro u hu
    cases hl : locatorOf a.element with
    | error e => rfl
    | ok l => simp only [h, hv, hu, Except.map, Option.getD]; rfl
  · intro hu
    cases hl : locatorOf a.element with
    | error e => rfl
    | ok l => simp only [h, hv, hu, Except.map, Option.getD]; rfl

/-- Witness for C5: filling with key user against a table mapping user
to alice fills alice, not the literal key. -/
theorem fill_substitutes_variables_witness :
    _execute_action fillUserAction [("user", "alice")] [] =
      .ok (.fill (.bySelector "#name") "alice") := by
  have := (fill_substitutes_variables fillUserAction [("user", "alice")] []
    "user" rfl rfl).1 "alice" rfl
  simpa using this

/-- C6: a session with max_page_views = 1 and the other budgets at
their defaults (max_total_actions = 20, per-step cap 5 bounding the
step's action count), whose first step instruction contains neither
DONE nor WAIT, ends by raising MaxPageViewsReachedException after
exactly one page view: the result records one page view, does not
depend on the remaining step oracle, and the budget checks run after
the step since the step's events are in the trace. -/
theorem session_max_page_views_one_raises_after_one_step
    (s : StepOut) (rest : List StepOut)
    (hD : pyContains s.instruction "DONE" = false)
    (hW : pyContains s.instruction "WAIT" = false)
    (hc : s.action_count ≤ 5) :
    ScrapeAiExecutor_execute (some 20) (some 1) 0 0 [] (s :: rest) =
      .maxPageViewsReached ((s.action.map ScrapeEvent.action).toList) 1
        s.action_count := by
  unfold ScrapeAiExecutor_execute
  have h20 : ¬ (20 ≤ s.action_count) := by omega
  simp [hD, hW, h20]

/-- Witness for C6 at a concrete step and a nonempty remaining oracle
that the session never consumes. -/
theorem session_max_page_views_one_raises_after_one_step_witness :
    pyContains loginStepOut.instruction "DONE" = false ∧
    pyContains loginStepOut.instruction "WAIT" = false ∧
    loginStepOut.action_count ≤ 5 ∧
    ScrapeAiExecutor_execute (some 20) (some 1) 0 0 []
        [loginStepOut, doneStepOut] =
      .maxPageViewsReached [ScrapeEvent.action submitButtonAction] 1 2 :=
  ⟨by decide, by decide, by decide, by
    simpa using session_max_page_views_one_raises_after_one_step
      loginStepOut [doneStepOut] (by decide) (by decide) (by decide)⟩

/-- Counterexample to C7 as stated: replaying the events DONE then WAIT
performs two 5000 ms sleeps, while replaying DONE alone performs one,
so a DONE event does not end the replay: the event after it is still
executed. -/
theorem replay_done_does_not_end_replay_cex :
    ScrapeSpecExecutor_execute [] [] [.special .DONE, .special .WAIT] [] =
      .completed [.sleep 5000, .sleep 5000] ∧
    ScrapeSpecExecutor_execute [] [] [.special .DONE] [] =
      .completed [.sleep 5000] ∧
    ([ReplayEffect.sleep 5000, ReplayEffect.sleep 5000] : List ReplayEffect) ≠
      [ReplayEffect.sleep 5000] :=
  ⟨rfl, rfl, by simp⟩

/-- C7 amended: during replay every Action event is executed with
exactly one browser attempt and no model call; a failed execution is a
hard failure that aborts the replay at once, its trace ending with that
single attempt and consuming nothing further; a successful execution
prepends its single attempt and continues; a WAIT event sleeps the
fixed 5000 ms; a DONE event sleeps the same 5000 ms but does not end
the replay, the remaining events still being processed. -/
theorem replay_single_attempt_and_sleep_semantics
    (vars : ScrapeVariables) (files : ScrapeFiles) (a : Action)
    (s : SpecialInstruction) (rest : List ScrapeEvent) (op : BrowserOp)
    (obs : List Bool) (hok : _execute_action a vars files = .ok op) :
    (ScrapeSpecExecutor_execute vars files (.action a :: rest) (false :: obs) =
      .failed [.execOp op]) ∧
    (ScrapeSpecExecutor_execute vars files (.action a :: rest) (true :: obs) =
      consEffect (.execOp op) (ScrapeSpecExecutor_execute vars files rest obs)) ∧
    (∀ oracle, ScrapeSpecExecutor_execute vars files (.special s :: rest) oracle =
      consEffect (.sleep 5000) (ScrapeSpecExecutor_execute vars files rest oracle)) := by
  refine ⟨?_, ?_, fun oracle => rfl⟩
  · conv_lhs => rw [ScrapeSpecExecutor_execute]
    rw [hok]
    rfl
  · conv_lhs => rw [ScrapeSpecExecutor_execute]
    rw [hok]
    rfl

/-- Witness for the amended C7: the specification's replay example, a
single recorded click on the button named Submit against a page lacking
it, fails after exactly one attempt; and a WAIT event sleeps 5000 ms. -/
theorem replay_single_attempt_and_sleep_semantics_witness :
    _execute_action submitButtonAction [] [] =
      .ok (.click (.byRole "button" (some "Submit"))) ∧
    ScrapeSpecExecutor_execute [] [] [.action submitButtonAction] [false] =
      .failed [.execOp (.click (.byRole "button" (some "Submit")))] ∧
    ScrapeSpecExecutor_execute [] [] [.special .WAIT] [] =
      consEffect (.sleep 5000) (ScrapeSpecExecutor_execute [] [] [] []) :=
  ⟨rfl,
    (replay_single_attempt_and_sleep_semantics [] [] submitButtonAction
      .WAIT [] (.click (.byRole "button" (some "Submit"))) [] rfl).1,
    (replay_single_attempt_and_sleep_semantics [] [] submitButtonAction
      .WAIT [] (.click (.byRole "button" (some "Submit"))) [] rfl).2.2 []⟩

/-- Round-trip of one scrape event through its JSON form. -/
theorem event_rt (ev : ScrapeEvent) :
    scrapeEventFromJson (scrapeEventToJson ev) = some ev := by
  cases ev with
  | special s => cases s <;> rfl
  | action a =>
    obtain ⟨⟨r, n, sel⟩, t, v⟩ := a
    cases r <;> cases n <;> cases sel <;> cases t <;> cases v <;> rfl

/-- Round-trip of an ordered scrape event list through its JSON form. -/
theorem events_rt (evs : List ScrapeEvent) :
    mapOpt scrapeEventFromJson (evs.map scrapeEventToJson) = some evs := by
  induction evs with
  | nil => rfl
  | cons e t ih => simp [List.map, mapOpt, event_rt e, ih]

/-- Round-trip of a FileInfo through its JSON form. -/
theorem fileInfo_rt (f : FileInfo) :
    fileInfoFromJson (fileInfoToJson f) = some f := by
  obtain ⟨n, b, m⟩ := f
  rfl

/-- Round-trip of the variables dict through its JSON form. -/
theorem vars_rt (v : ScrapeVariables) : varsFromJson (varsToJson v) = some v := by
  have key : ∀ l : ScrapeVariables,
      mapOpt (fun p => (strFromJson p.2).map (fun w => (p.1, w)))
        (l.map (fun p => (p.1, Json.str p.2))) = some l := by
    intro l
    induction l with
    | nil => rfl
    | cons p t ih =>
      obtain ⟨k, val⟩ := p
      simp only [List.map, mapOpt]
      rw [show strFromJson (Json.str val) = some val from rfl]
      simp [ih]
  exact key v

/-- Round-trip of the files dict through its JSON form. -/
theorem files_rt (fs : ScrapeFiles) : filesFromJson (filesToJson fs) = some fs := by
  have key : ∀ l : ScrapeFiles,
      mapOpt (fun p => (fileInfoFromJson p.2).map (fun w => (p.1, w)))
        (l.map (fun p => (p.1, fileInfoToJson p.2))) = some l := by
    intro l
    induction l with
    | nil => rfl
    | cons p t ih =>
      obtain ⟨k, val⟩ := p
      simp only [List.map, mapOpt]
      rw [fileInfo_rt val]
      simp [ih]
  exact key fs

/-- C8: serializing any ScrapeSpec to its JSON file form and validating
that form back yields the identical spec, in particular an identical
ordered scrape_events list for any interleaving of Action, WAIT and
DONE entries, since a string entry can only validate as a special
instruction and an object entry only as an Action. -/
theorem scrape_spec_roundtrip (spec : ScrapeSpec) :
    scrapeSpecFromJson (scrapeSpecToJson spec) = some spec := by
  obtain ⟨url, evs, vs, fs, w, h⟩ := spec
  simp [scrapeSpecToJson, scrapeSpecFromJson, jGet, List.find?, strFromJson,
    intFromJson, events_rt, vars_rt, files_rt]

/-- C10: whenever a step's instruction contains DONE, the session loop
appends SpecialInstruction.DONE to the event trace and ends the session
successfully, whatever the budgets and counters are: neither
MaxTotalActionsReachedException nor MaxPageViewsReachedException is
raised even if the limits are already met, because the DONE break
precedes both budget checks. -/
theorem done_check_precedes_budget_checks
    (maxT maxP : Option Nat) (pv ac : Nat) (events : List ScrapeEvent)
    (s : StepOut) (rest : List StepOut)
    (h : pyContains s.instruction "DONE" = true) :
    ScrapeAiExecutor_execute maxT maxP pv ac events (s :: rest) =
      .done (events ++ (s.action.map ScrapeEvent.action).toList
          ++ [ScrapeEvent.special SpecialInstruction.DONE]) (pv + 1)
        (ac + s.action_count) := by
  unfold ScrapeAiExecutor_execute
  simp [h]

/-- Witness for C10 with both budgets already exceeded after the step:
page view 4 of a 1 page budget and 10 actions of a 1 action budget
still end in success. -/
theorem done_check_precedes_budget_checks_witness :
    pyContains doneStepOut.instruction "DONE" = true ∧
    ScrapeAiExecutor_execute (some 1) (some 1) 3 5 [] [doneStepOut] =
      .done [ScrapeEvent.special SpecialInstruction.DONE] 4 10 :=
  ⟨by decide, by
    simpa using done_check_precedes_budget_checks (some 1) (some 1) 3 5 []
      doneStepOut [] (by decide)⟩

/-- Reduction of Python del on a dict that contains the key. -/
theorem delAttr_ok (acc : List (String × String)) (k : String)
    (h : acc.any (fun p => p.1 == k) = true) :
    delAttr acc k = .ok (acc.filter (fun p => p.1 != k)) := by
  simp [delAttr, h]

/-- The attribute deletion fold never raises KeyError when the iterated
keys are distinct and all present in the starting dict. -/
theorem foldStrip_ok :
    ∀ (ks : List String) (acc : List (String × String)),
      nodupKeys ks = true →
      (∀ k, k ∈ ks → acc.any (fun p => p.1 == k) = true) →
      ∃ r, ks.foldlM (fun acc k =>
          if ALLOWED_TAG_SET.contains k then pure acc else delAttr acc k) acc =
        Except.ok r := by
  intro ks
  induction ks with
  | nil => intro acc _ _; exact ⟨acc, rfl⟩
  | cons k t ih =>
    intro acc hnd hmem
    have hnd' : (t.any (fun x => x == k)) = false ∧ nodupKeys t = true := by
      simpa [nodupKeys, Bool.and_eq_true] using hnd
    rw [List.foldlM_cons]
    by_cases hal : ALLOWED_TAG_SET.contains k
    · simp only [hal, if_true]
      have hpure : (pure acc >>= fun acc' => t.foldlM (fun acc k =>
          if ALLOWED_TAG_SET.contains k then pure acc else delAttr acc k) acc') =
          t.foldlM (fun acc k =>
            if ALLOWED_TAG_SET.contains k then pure acc else delAttr acc k) acc := by
        simp
      rw [hpure]
      exact ih acc hnd'.2 (fun k' hk' => hmem k' (List.mem_cons_of_mem _ hk'))
    · have hany := hmem k (List.mem_cons_self _ _)
      have hal' : ALLOWED_TAG_SET.contains k = false := by simpa using hal
      simp only [hal', Bool.false_eq_true, if_false, delAttr_ok acc k hany,
        exceptBindOk]
      apply ih _ hnd'.2
      intro k' hk'
      have hne : k' ≠ k := by
        intro e
        subst e
        have hc : t.any (fun x => x == k') = true :=
          List.any_eq_true.mpr ⟨k', hk', by simp⟩
        rw [hc] at hnd'
        exact absurd hnd'.1 (by simp)
      have hk'any := hmem k' (List.mem_cons_of_mem _ hk')
      rw [List.any_eq_true] at hk'any ⊢
      obtain ⟨p, hp, hpk⟩ := hk'any
      refine ⟨p, ?_, hpk⟩
      rw [List.mem_filter]
      refine ⟨hp, ?_⟩
      have hp1 : p.1 = k' := by simpa using hpk
      simp [hp1, hne]

/-- Attribute stripping of one element's dict never raises when its
keys are distinct. -/
theorem stripAttrsOne_ok (attrs : List (String × String))
    (h : nodupKeys (attrs.map Prod.fst) = true) :
    ∃ r, stripAttrsOne attrs = Except.ok r := by
  apply foldStrip_ok (attrs.map Prod.fst) attrs h
  intro k hk
  rw [List.mem_map] at hk
  obtain ⟨p, hp, rfl⟩ := hk
  exact List.any_eq_true.mpr ⟨p, hp, by simp⟩

mutual
/-- Attribute stripping over a node never raises on well-formed attrs. -/
theorem stripAttrsNode_ok : ∀ (n : HtmlNode), nodeWF n = true →
    ∃ r, stripAttrsNode n = Except.ok r
  | .text s, _ => ⟨.text s, rfl⟩
  | .element nm a c, h => by
    have h' : nodupKeys (a.map Prod.fst) = true ∧ forestWF c = true := by
      simpa [nodeWF, Bool.and_eq_true] using h
    obtain ⟨r1, h1⟩ := stripAttrsOne_ok a h'.1
    obtain ⟨r2, h2⟩ := stripAttrsForest_ok c h'.2
    refine ⟨.element nm r1 r2, ?_⟩
    simp only [stripAttrsNode, h1, h2, exceptBindOk]
/-- Attribute stripping over a forest never raises on well-formed attrs. -/
theorem stripAttrsForest_ok : ∀ (f : HtmlForest), forestWF f = true →
    ∃ r, stripAttrsForest f = Except.ok r
  | .nil, _ => ⟨.nil, rfl⟩
  | .cons hd tl, h => by
    have h' : nodeWF hd = true ∧ forestWF tl = true := by
      simpa [forestWF, Bool.and_eq_true] using h
    obtain ⟨r1, h1⟩ := stripAttrsNode_ok hd h'.1
    obtain ⟨r2, h2⟩ := stripAttrsForest_ok tl h'.2
    refine ⟨.cons r1 r2, ?_⟩
    simp only [stripAttrsForest, h1, h2, exceptBindOk]
end

mutual
/-- Tag removal preserves well-formedness of a node. -/
theorem removeTag_nodeWF (tname : String) : ∀ n, nodeWF n = true →
    nodeWF (removeTagNode tname n) = true
  | .text _, h => h
  | .element nm a c, h => by
    have h' : nodupKeys (a.map Prod.fst) = true ∧ forestWF c = true := by
      simpa [nodeWF, Bool.and_eq_true] using h
    simp only [removeTagNode, nodeWF, Bool.and_eq_true]
    exact ⟨h'.1, removeTag_forestWF tname c h'.2⟩
/-- Tag removal preserves well-formedness of a forest. -/
theorem removeTag_forestWF (tname : String) : ∀ f, forestWF f = true →
    forestWF (removeTagForest tname f) = true
  | .nil, _ => rfl
  | .cons hd tl, h => by
    have h' : nodeWF hd = true ∧ forestWF tl = true := by
      simpa [forestWF, Bool.and_eq_true] using h
    cases hd with
    | text s =>
      simp only [removeTagForest, forestWF, Bool.and_eq_true]
      exact ⟨rfl, removeTag_forestWF tname tl h'.2⟩
    | element n a c =>
      have hn : nodupKeys (a.map Prod.fst) = true ∧ forestWF c = true := by
        simpa [nodeWF, Bool.and_eq_true] using h'.1
      by_cases he : n = tname
      · simp only [removeTagForest, he, if_true]
        exact removeTag_forestWF tname tl h'.2
      · simp only [removeTagForest, he, if_false, forestWF, nodeWF,
          Bool.and_eq_true]
        exact ⟨⟨hn.1, removeTag_forestWF tname c hn.2⟩,
          removeTag_forestWF tname tl h'.2⟩
end

/-- Script and style stripping preserves well-formedness of the body. -/
theorem strip_tags_WF (body : HtmlNode) (h : nodeWF body = true) :
    nodeWF (_strip_all_script_and_style_tags body) = true := by
  cases body with
  | text s => exact h
  | element n a c =>
    have h' : nodupKeys (a.map Prod.fst) = true ∧ forestWF c = true := by
      simpa [nodeWF, Bool.and_eq_true] using h
    simp only [_strip_all_script_and_style_tags, nodeWF, Bool.and_eq_true]
    exact ⟨h'.1, removeTag_forestWF "style" _ (removeTag_forestWF "script" c h'.2)⟩

/-- The strip passes themselves never raise: whenever soup.find("body")
yields a body whose attribute dicts have distinct keys, which holds of
every parser output since Python dict keys are unique, the sanitization
returns a cleaned body. So the only exception in the sanitization path
of `_get_html` is the unchecked body lookup. -/
theorem sanitize_with_body_ok (body : HtmlNode) (h : nodeWF body = true) :
    ∃ clean, _get_html_sanitized (some body) = Except.ok clean := by
  have hw := strip_tags_WF body h
  obtain ⟨r, hr⟩ := stripAttrsNode_ok _ hw
  exact ⟨r, hr⟩

/-- C9: the claim follows the specification's requirement that
sanitizing malformed markup must not raise, but the code slips:
`_get_html` does cast(Tag, soup.find("body")) with no None check
(execution.py line 326), so for markup whose parse has no body element,
such as the empty string or a head-only document under the lxml tree
builder, the body lookup is None and the code raises AttributeError in
`_strip_all_script_and_style_tags(None)`. Evaluating the embedded
sanitization path at that failing lookup yields the error, while with
any well-formed body present it completes, here at a body containing a
script element, a disallowed onclick attribute and allow-listed
attributes. -/
theorem sanitizer_raises_on_bodyless_markup :
    _get_html_sanitized Option.none = Except.error "AttributeError" ∧
    nodeWF sampleBody = true ∧
    (∃ clean, _get_html_sanitized (some sampleBody) = Except.ok clean) :=
  ⟨rfl, rfl, sanitize_with_body_ok sampleBody rfl⟩

end Betatester
